import Mathlib

/-!
Shallow embedding of the WebSocket topic-multiplexing layer and the REST
response handler of the orderly-sdk-py repository
(src/orderly_sdk/ws.py, src/orderly_sdk/rest.py, src/orderly_sdk/exceptions.py),
together with theorems settling the frozen claims about it.

Modelling conventions:
- JSON values are the inductive `JVal`; Python truthiness is `pyTruthy`.
- `WsTopicManager.queues` is a `defaultdict(asyncio.Queue)`; it is embedded as
  an insertion-ordered association list `Registry` from topic strings to queue
  contents (lists of `JVal`, head = front of the queue), with `Registry.push`
  reproducing the defaultdict auto-creation performed by `self.queues[k].put(v)`.
- A parsed inbound frame is `Frame`: the dispatcher only ever reads the keys
  "event", "success", "data", "topic" and "ts", so the frame is embedded as a
  record of those optional fields.  A raw wire message is `Option Frame`, with
  `none` standing for a frame that `json.loads` fails to parse.
- Python exceptions raised by the dispatcher are `PyError`.
- Outgoing control messages are `WireMsg`; the auth message's params
  (timestamp and Ed25519 signature, produced by `_login`/`_signature`) are
  time- and crypto-dependent and are abstracted into the constructor
  `WireMsg.authW` carrying the client id.
-/

namespace OrderlySdk

/-- JSON values as dispatched by the Python code (dicts are ordered field
lists, matching Python dict insertion order). -/
inductive JVal : Type
  | jNull : JVal
  | jBool : Bool → JVal
  | jNum : Int → JVal
  | jStr : String → JVal
  | jArr : List JVal → JVal
  | jObj : List (String × JVal) → JVal

/-- Python truthiness of a JSON value: None, False, 0, "", [] and \x7b\x7d are
falsy, everything else is truthy.  This is the `bool()` test applied by
`while not res` in `WsTopicManager.recv`. -/
def pyTruthy : JVal → Bool
  | JVal.jNull => false
  | JVal.jBool b => b
  | JVal.jNum n => n != 0
  | JVal.jStr s => s ≠ ""
  | JVal.jArr xs => !xs.isEmpty
  | JVal.jObj fs => !fs.isEmpty

/-- Dict field lookup, first match (`d[k]` on a Python dict, as `Option`). -/
def objGet : List (String × JVal) → String → Option JVal
  | [], _ => none
  | (k, v) :: rest, key => if k = key then some v else objGet rest key

/-- Dict field assignment `d[k] = v`: replace in place if the key exists,
otherwise append at the end (Python dict insertion-order semantics). -/
def objSet : List (String × JVal) → String → JVal → List (String × JVal)
  | [], key, v => [(key, v)]
  | (k, w) :: rest, key, v =>
      if k = key then (key, v) :: rest else (k, w) :: objSet rest key v

/-- The topic-queue registry `WsTopicManager.queues`: an insertion-ordered map
from topic name to the pending messages of that topic's `asyncio.Queue`
(head of the list = front of the queue). -/
abbrev Registry : Type := List (String × List JVal)

namespace Registry

/-- Non-creating key lookup (`queues[t]` viewed read-only / `t in queues`). -/
def find : Registry → String → Option (List JVal)
  | [], _ => none
  | (k, q) :: rest, t => if k = t then some q else find rest t

/-- Dict assignment `queues[t] = q` (used by `WsTopicManager.subscribe`):
replace in place, else append at the end. -/
def set : Registry → String → List JVal → Registry
  | [], t, q => [(t, q)]
  | (k, q0) :: rest, t, q =>
      if k = t then (t, q) :: rest else (k, q0) :: set rest t q

/-- Dict removal `queues.pop(t)` once the key is known present. -/
def erase : Registry → String → Registry
  | [], _ => []
  | (k, q) :: rest, t => if k = t then rest else (k, q) :: erase rest t

/-- The defaultdict enqueue `queues[t].put(v)`: append `v` to the queue of
`t`, auto-creating an empty queue (a fresh registry entry at the end) when
`t` has no entry — this is the `defaultdict(asyncio.Queue)` behaviour of
`WsTopicManager.__init__`. -/
def push : Registry → String → JVal → Registry
  | [], t, v => [(t, [v])]
  | (k, q) :: rest, t, v =>
      if k = t then (k, q ++ [v]) :: rest else (k, q) :: push rest t v

/-- Topic names in registry (iteration) order (`queues.keys()`). -/
def keys (r : Registry) : List String := r.map (fun e => e.1)

end Registry

/-- A parsed inbound WebSocket frame, restricted to the keys the dispatcher
reads.  A missing field models a key absent from the JSON object. -/
structure Frame : Type where
  event : Option String
  success : Option Bool
  data : Option JVal
  topic : Option String
  ts : Option JVal

/-- A plain data frame of the wire protocol, shaped like the inbound JSON
object with only a topic name and a data payload. -/
def dataFrame (t : String) (d : JVal) : Frame :=
  { event := none, success := none, data := some d, topic := some t, ts := none }

/-- Python exceptions that can escape the dispatcher. -/
inductive PyError : Type
  | keyError : String → PyError
  | typeError : PyError
  | dispatchError : Frame → PyError
  | jsonDecodeError : PyError
  | connClosed : PyError

/-- Outgoing control messages produced by the managers.  `authW` abstracts
the `_login` auth message (its params carry a wall-clock timestamp and an
Ed25519 signature over it, which are not modelled). -/
inductive WireMsg : Type
  | pongW : WireMsg
  | subscribeW : String → String → WireMsg
  | unsubscribeW : String → String → WireMsg
  | authW : String → WireMsg

/-- `WsTopicManager._handle_heartbeat`: after parsing, if the frame carries
`event == "ping"`, send one pong control frame. -/
def handleHeartbeat (f : Frame) : List WireMsg :=
  match f.event with
  | some ev => if ev = "ping" then [WireMsg.pongW] else []
  | none => []

/-- `WsTopicManager._handle_request_orderbook`: compute the topic
`message["data"]["symbol"] + "@orderbook"`, set `data["ts"] = message["ts"]`
on the payload dict, and enqueue the payload on that topic's queue. -/
def handleRequestOrderbook (st : Registry) (f : Frame) : Except PyError Registry :=
  match f.data with
  | some (JVal.jObj fields) =>
      match objGet fields "symbol" with
      | some (JVal.jStr sym) =>
          match f.ts with
          | some tsv =>
              Except.ok (st.push (sym ++ "@orderbook") (JVal.jObj (objSet fields "ts" tsv)))
          | none => Except.error (PyError.keyError "ts")
      | some _ => Except.error PyError.typeError
      | none => Except.error (PyError.keyError "symbol")
  | some _ => Except.error PyError.typeError
  | none => Except.error (PyError.keyError "data")

/-- `WsTopicManager._handle_general_message`: enqueue `message["data"]`
verbatim onto the queue named by `message["topic"]`. -/
def handleGeneralMessage (st : Registry) (topic : Option String) (d : JVal) :
    Except PyError Registry :=
  match topic with
  | some t => Except.ok (st.push t d)
  | none => Except.error (PyError.keyError "topic")

/-- `WsTopicManager._handle_message`, after `json.loads`: if the frame has an
"event" key other than ping/pong, read `message["success"]` (KeyError when
absent); on failure raise `Exception(message)`; on success handle a
request-type ack carrying data via `_handle_request_orderbook` and return,
dropping every other successful ack.  Frames without such an event marker
fall through to the data branch and are enqueued by topic. -/
def handleMessage (st : Registry) (f : Frame) : Except PyError Registry :=
  match f.event with
  | some ev =>
      if ev = "ping" ∨ ev = "pong" then
        match f.data with
        | some d => handleGeneralMessage st f.topic d
        | none => Except.ok st
      else
        match f.success with
        | some b =>
            if b then
              if f.data.isSome ∧ ev = "request" then handleRequestOrderbook st f
              else Except.ok st
            else Except.error (PyError.dispatchError f)
        | none => Except.error (PyError.keyError "success")
  | none =>
      match f.data with
      | some d => handleGeneralMessage st f.topic d
      | none => Except.ok st

/-- One iteration of the read loop body in `WsTopicManager._connect`: parse
the raw message (raising on malformed JSON inside `_handle_heartbeat`), send
the heartbeat response, then dispatch via `_handle_message`. -/
def processFrame (st : Registry) (raw : Option Frame) :
    List WireMsg × Except PyError Registry :=
  match raw with
  | none => ([], Except.error PyError.jsonDecodeError)
  | some f => (handleHeartbeat f, handleMessage st f)

/-- Sequential dispatch of a list of parsed frames, stopping at the first
exception (frames are handled one at a time, in wire-arrival order). -/
def dispatchList (st : Registry) : List Frame → Except PyError Registry
  | [] => Except.ok st
  | f :: rest =>
      match handleMessage st f with
      | Except.ok st1 => dispatchList st1 rest
      | Except.error e => Except.error e

/-- One observable event of a `recv(topic, timeout)` loop iteration: either
`asyncio.wait_for` times out, or `queue.get()` yields a message. -/
inductive RecvEvent : Type
  | timeoutE : RecvEvent
  | item : JVal → RecvEvent

/-- `WsTopicManager.recv`, run over a finite trace of loop events: starting
from `res = None`, each timeout logs one warning and retries, each dequeued
item replaces `res` and the loop exits as soon as `res` is truthy.  The
result is the number of warnings logged together with the returned message
(`none` when the trace ends with recv still blocked in the loop). -/
def recvLoop : List RecvEvent → Nat × Option JVal
  | [] => (0, none)
  | RecvEvent.timeoutE :: rest =>
      ((recvLoop rest).1 + 1, (recvLoop rest).2)
  | RecvEvent.item v :: rest =>
      if pyTruthy v then (0, some v) else recvLoop rest

/-- Effect of one `recv` call on a single queue's pending contents: dequeue
items until a truthy one is returned; the consumed falsy items are gone. -/
def drainQ : List JVal → Option JVal × List JVal
  | [] => (none, [])
  | v :: rest => if pyTruthy v then (some v, rest) else drainQ rest

/-- Effect of one `recv(t)` call on the registry: `self.queues[t]` is a
defaultdict access (auto-creating an empty entry when `t` is unregistered),
then the queue is drained up to the first truthy item. -/
def recvRegistry (r : Registry) (t : String) : Registry :=
  match Registry.find r t with
  | some q => Registry.set r t (drainQ q).2
  | none => r ++ [(t, [])]

/-- `WsTopicManager._reconnect`: on every (re)connect, iterate over
`self.queues.keys()` and send one subscribe control message per topic
(`do_subscribe` sends a dict with the client id, the event "subscribe" and
the topic); the registry itself is not touched. -/
def reconnectPubMsgs (cid : String) (r : Registry) : List WireMsg :=
  (Registry.keys r).foldl (fun acc t => acc ++ [WireMsg.subscribeW cid t]) []

/-- `OrderlyPrivateWsManager._reconnect`: iterate over `self.queues.keys()`
and, for each topic, send a fresh `_login` auth message followed by that
topic's subscribe control message; the registry itself is not touched. -/
def reconnectPrivMsgs (cid : String) (r : Registry) : List WireMsg :=
  (Registry.keys r).foldl
    (fun acc t => acc ++ [WireMsg.authW cid, WireMsg.subscribeW cid t]) []

/-- `WsTopicManager.unsubscribe`: first `self.websocket.send(...)` the
unsubscribe control message, then `self.queues.pop(topic)`.  `sendOk` is the
outcome of the wire send (when it raises, nothing was sent and `pop` is
never reached); `pop` on a missing key raises `KeyError` after the message
has already been sent.  Result: messages actually sent, the registry after
the call, and the exception (if any) propagated to the caller. -/
def unsubscribe (cid : String) (r : Registry) (t : String) (sendOk : Bool) :
    List WireMsg × Registry × Option PyError :=
  if sendOk then
    match Registry.find r t with
    | some _ => ([WireMsg.unsubscribeW cid t], Registry.erase r t, none)
    | none => ([WireMsg.unsubscribeW cid t], r, some (PyError.keyError t))
  else
    ([], r, some PyError.connClosed)

/-- The operations of a manager that touch the topic-queue registry,
translated from the methods of `WsTopicManager` / `OrderlyPrivateWsManager`:
`subscribe`, `unsubscribe` (with the wire-send outcome), the two
`_reconnect` variants, dispatch of one inbound frame, and one `recv` call. -/
inductive Op : Type
  | subscribeOp : String → Op
  | unsubscribeOp : String → Bool → Op
  | reconnectPubOp : Op
  | reconnectPrivOp : Op
  | dispatchOp : Frame → Op
  | recvOp : String → Op

/-- Registry effect of each operation (when an operation raises, the registry
is left as the Python code leaves it at the raise point). -/
def step (r : Registry) : Op → Registry
  | Op.subscribeOp t => Registry.set r t []
  | Op.unsubscribeOp t ok => (unsubscribe "WS_PUBLIC" r t ok).2.1
  | Op.reconnectPubOp => r
  | Op.reconnectPrivOp => r
  | Op.dispatchOp f =>
      match handleMessage r f with
      | Except.ok r1 => r1
      | Except.error _ => r
  | Op.recvOp t => recvRegistry r t

/-- One event observed by the read loop in `_connect`: either
`asyncio.wait_for(websocket.recv(), timeout)` times out, or a raw frame
arrives (with `none` standing for a frame `json.loads` cannot parse). -/
inductive InEvent : Type
  | timeoutEv : InEvent
  | frameEv : Option Frame → InEvent

/-- How the inner `while True` read loop of `_connect` ended. -/
inductive LoopEnd : Type
  | timedOutEnd : LoopEnd
  | erroredEnd : PyError → LoopEnd
  | exhausted : LoopEnd

/-- The inner read loop of `WsTopicManager._connect` over a finite event
trace: a timeout logs a warning and breaks; a frame is processed by
`_handle_heartbeat` then `_handle_message`, and any exception they raise
escapes the loop (only `asyncio.TimeoutError` is caught inside), to be
logged by the outer handler.  Returns the final registry, the control
messages sent, and how the loop ended. -/
def readLoop (st : Registry) : List InEvent → Registry × List WireMsg × LoopEnd
  | [] => (st, [], LoopEnd.exhausted)
  | InEvent.timeoutEv :: _ => (st, [], LoopEnd.timedOutEnd)
  | InEvent.frameEv raw :: rest =>
      match processFrame st raw with
      | (sends, Except.ok st1) =>
          match readLoop st1 rest with
          | (st2, sends2, e) => (st2, sends ++ sends2, e)
      | (sends, Except.error e) => (st, sends, LoopEnd.erroredEnd e)

/-- `WsTopicManager._connect` over a finite list of connection attempts
(the `async for websocket in websockets.connect(...)` retry loop): each
attempt first replays every registered topic's subscription via
`_reconnect`, then runs the read loop; whether that loop times out, errors
(logged by the outer `except Exception` handler) or the trace ends, the
next attempt continues with the registry the previous one left. -/
def connectRun (st : Registry) : List (List InEvent) → Registry × List WireMsg
  | [] => (st, [])
  | evs :: rest =>
      let sends0 := reconnectPubMsgs "WS_PUBLIC" st
      match readLoop st evs with
      | (st1, sends1, _) =>
          match connectRun st1 rest with
          | (st2, sends2) => (st2, sends0 ++ sends1 ++ sends2)

/-- A REST response as seen by `AsyncClient._handle_response`: the HTTP
status, the parsed JSON body when `response.json()` succeeds (`none` when it
raises `ValueError`), and the raw text used in the fallback error. -/
structure HttpResponse : Type where
  status : Nat
  body : Option JVal
  text : String

/-- Errors the REST layer can raise (`exceptions.py`):
`OrderlyRequestException(message)` for unparseable bodies, and
`OrderlyAPIException(resp_json, status_code)` which stores the HTTP status
together with the body's "code" and "message" fields. -/
inductive RestError : Type
  | requestException : String → RestError
  | apiException : Nat → Option JVal → Option JVal → RestError

/-- The non-2xx test of `_handle_response`:
`not str(response.status).startswith("2")`, i.e. the first character of the
decimal representation of the status is not the digit 2. -/
def statusNon2xx (status : Nat) : Bool :=
  !((Nat.repr status).data.take 1 == ['2'])

/-- `AsyncClient._handle_response`: log an error when the status string does
not start with "2", then return the parsed JSON body as the normal result;
only a body that fails to parse raises (`OrderlyRequestException`).  The
first component records whether the error log line was emitted. -/
def handleResponse (resp : HttpResponse) : Bool × Except RestError JVal :=
  (statusNon2xx resp.status,
    match resp.body with
    | some j => Except.ok j
    | none => Except.error (RestError.requestException ("Invalid Response: " ++ resp.text)))

/-- Queue contents of a topic, with the empty queue for unregistered topics. -/
def qOf (r : Registry) (t : String) : List JVal :=
  (Registry.find r t).getD []

/-- A structured error body as Orderly REST endpoints return it on a
non-2xx response. -/
def sampleErrBody : JVal :=
  JVal.jObj [("success", JVal.jBool false), ("code", JVal.jNum (-1101)),
             ("message", JVal.jStr "insufficient margin")]

theorem find_set (r : Registry) (t s : String) (q : List JVal) :
    Registry.find (Registry.set r t q) s = if s = t then some q else Registry.find r s := by
  induction r with
  | nil =>
      by_cases hs : s = t
      · subst hs; simp [Registry.set, Registry.find]
      · simp [Registry.set, Registry.find, hs, Ne.symm hs]
  | cons e rest ih =>
      obtain ⟨k, q0⟩ := e
      by_cases hk : k = t
      · subst hk
        by_cases hs : s = k
        · subst hs; simp [Registry.set, Registry.find]
        · simp [Registry.set, Registry.find, hs, Ne.symm hs]
      · by_cases hs : k = s
        · subst hs
          simp [Registry.set, Registry.find, hk]
        · simp [Registry.set, Registry.find, hk, hs, ih]

theorem find_push (r : Registry) (t s : String) (v : JVal) :
    Registry.find (Registry.push r t v) s
      = if s = t then some ((Registry.find r t).getD [] ++ [v])
        else Registry.find r s := by
  induction r with
  | nil =>
      by_cases hs : s = t
      · subst hs; simp [Registry.push, Registry.find]
      · simp [Registry.push, Registry.find, hs, Ne.symm hs]
  | cons e rest ih =>
      obtain ⟨k, q0⟩ := e
      by_cases hk : k = t
      · subst hk
        by_cases hs : s = k
        · subst hs; simp [Registry.push, Registry.find]
        · simp [Registry.push, Registry.find, hs, Ne.symm hs]
      · by_cases hs : k = s
        · subst hs
          simp [Registry.push, Registry.find, hk]
        · simp [Registry.push, Registry.find, hk, hs, ih]

theorem find_erase_ne (r : Registry) (t s : String) (h : s ≠ t) :
    Registry.find (Registry.erase r t) s = Registry.find r s := by
  induction r with
  | nil => simp [Registry.erase]
  | cons e rest ih =>
      obtain ⟨k, q0⟩ := e
      by_cases hk : k = t
      · subst hk
        have hks : ¬ k = s := fun hh => h hh.symm
        simp [Registry.erase, Registry.find, hks]
      · simp [Registry.erase, Registry.find, hk, ih]

theorem find_erase_none (r : Registry) (t s : String) (h : Registry.find r s = none) :
    Registry.find (Registry.erase r t) s = none := by
  induction r with
  | nil => simpa [Registry.erase] using h
  | cons e rest ih =>
      obtain ⟨k, q0⟩ := e
      by_cases hks : k = s
      · subst hks
        simp [Registry.find] at h
      · simp [Registry.find, hks] at h
        by_cases hk : k = t
        · subst hk; simpa [Registry.erase] using h
        · simp [Registry.erase, Registry.find, hk, hks, ih h]

theorem find_append_of_none (r l : Registry) (s : String)
    (h : Registry.find r s = none) :
    Registry.find (r ++ l) s = Registry.find l s := by
  induction r with
  | nil => simp
  | cons e rest ih =>
      obtain ⟨k, q0⟩ := e
      by_cases hks : k = s
      · subst hks; simp [Registry.find] at h
      · simp [Registry.find, hks] at h ⊢
        exact ih h

theorem find_append_of_some (r l : Registry) (s : String) (q : List JVal)
    (h : Registry.find r s = some q) :
    Registry.find (r ++ l) s = some q := by
  induction r with
  | nil => simp [Registry.find] at h
  | cons e rest ih =>
      obtain ⟨k, q0⟩ := e
      by_cases hks : k = s
      · subst hks
        simp [Registry.find] at h ⊢
        exact h
      · simp [Registry.find, hks] at h ⊢
        exact ih h

theorem push_eq_append_of_none (r : Registry) (t : String) (v : JVal)
    (h : Registry.find r t = none) :
    Registry.push r t v = r ++ [(t, [v])] := by
  induction r with
  | nil => simp [Registry.push]
  | cons e rest ih =>
      obtain ⟨k, q0⟩ := e
      by_cases hk : k = t
      · subst hk; simp [Registry.find] at h
      · simp [Registry.find, hk] at h
        simp [Registry.push, hk, ih h]

theorem qOf_push (r : Registry) (tp t : String) (d : JVal) :
    qOf (Registry.push r tp d) t = if t = tp then qOf r tp ++ [d] else qOf r t := by
  by_cases h : t = tp
  · subst h; simp [qOf, find_push]
  · simp [qOf, find_push, h]

theorem handleGeneralMessage_ok (r r1 : Registry) (topic : Option String) (d : JVal)
    (h : handleGeneralMessage r topic d = Except.ok r1) :
    ∃ t, topic = some t ∧ r1 = Registry.push r t d := by
  cases topic with
  | none => simp [handleGeneralMessage] at h
  | some t =>
      simp [handleGeneralMessage] at h
      exact ⟨t, rfl, h.symm⟩

theorem handleRequestOrderbook_ok (r r1 : Registry) (f : Frame)
    (h : handleRequestOrderbook r f = Except.ok r1) :
    ∃ t v, r1 = Registry.push r t v := by
  unfold handleRequestOrderbook at h
  split at h
  · split at h
    · split at h
      · simp only [Except.ok.injEq] at h
        exact ⟨_, _, h.symm⟩
      · simp at h
    · simp at h
    · simp at h
  · simp at h
  · simp at h

theorem handleMessage_ok_shape (r r1 : Registry) (f : Frame)
    (h : handleMessage r f = Except.ok r1) :
    r1 = r ∨ ∃ t v, r1 = Registry.push r t v := by
  unfold handleMessage at h
  split at h
  · split at h
    · split at h
      · obtain ⟨t, _, hr⟩ := handleGeneralMessage_ok r r1 f.topic _ h
        exact Or.inr ⟨t, _, hr⟩
      · simp only [Except.ok.injEq] at h
        exact Or.inl h.symm
    · split at h
      · split at h
        · split at h
          · exact Or.inr (handleRequestOrderbook_ok r r1 f h)
          · simp only [Except.ok.injEq] at h
            exact Or.inl h.symm
        · simp at h
      · simp at h
  · split at h
    · obtain ⟨t, _, hr⟩ := handleGeneralMessage_ok r r1 f.topic _ h
      exact Or.inr ⟨t, _, hr⟩
    · simp only [Except.ok.injEq] at h
      exact Or.inl h.symm

theorem flatMap_single {α β : Type} (g : α → β) (l : List α) :
    l.flatMap (fun t => [g t]) = l.map g := by
  induction l with
  | nil => rfl
  | cons x rest ih => simp [List.flatMap_cons, ih]

theorem foldl_append_bind {α β : Type} (g : α → List β) (l : List α) (init : List β) :
    l.foldl (fun acc t => acc ++ g t) init = init ++ l.flatMap g := by
  induction l generalizing init with
  | nil => simp
  | cons x rest ih => simp [List.foldl, ih, List.append_assoc]

/-- C2: `recv(topic, timeout)` blocks until a message is available in the
topic's queue: whenever it returns, the returned value is truthy (never
empty/null) and was actually delivered by the queue; on a trace in which the
timeout elapses with no message ever delivered, recv returns nothing and has
logged one warning per elapsed timeout interval, retrying indefinitely. -/
theorem recv_returns_only_real_data :
    (∀ (evs : List RecvEvent) (v : JVal),
        (recvLoop evs).2 = some v → pyTruthy v = true ∧ RecvEvent.item v ∈ evs) ∧
    (∀ evs : List RecvEvent,
        (∀ v : JVal, RecvEvent.item v ∉ evs) →
        (recvLoop evs).2 = none ∧ (recvLoop evs).1 = evs.length) := by
  constructor
  · intro evs
    induction evs with
    | nil => intro v h; simp [recvLoop] at h
    | cons e rest ih =>
        intro v h
        cases e with
        | timeoutE =>
            simp only [recvLoop] at h
            obtain ⟨hv, hm⟩ := ih v h
            exact ⟨hv, List.mem_cons_of_mem _ hm⟩
        | item w =>
            by_cases hw : pyTruthy w
            · simp [recvLoop, hw] at h
              subst h
              exact ⟨hw, List.mem_cons_self _ _⟩
            · simp only [recvLoop, hw, if_false, Bool.false_eq_true] at h
              obtain ⟨hv, hm⟩ := ih v h
              exact ⟨hv, List.mem_cons_of_mem _ hm⟩
  · intro evs
    induction evs with
    | nil => intro _; simp [recvLoop]
    | cons e rest ih =>
        intro h
        cases e with
        | timeoutE =>
            have hrest := ih (fun v hv => h v (List.mem_cons_of_mem _ hv))
            simp [recvLoop, hrest.1, hrest.2]
        | item w => exact absurd (List.mem_cons_self _ _) (h w)

/-- Witness for C2 at the concrete trace of two timeouts and no message. -/
theorem recv_returns_only_real_data_witness :
    (∀ v : JVal, RecvEvent.item v ∉ [RecvEvent.timeoutE, RecvEvent.timeoutE]) ∧
    ((recvLoop [RecvEvent.timeoutE, RecvEvent.timeoutE]).2 = none ∧
      (recvLoop [RecvEvent.timeoutE, RecvEvent.timeoutE]).1
        = [RecvEvent.timeoutE, RecvEvent.timeoutE].length) := by
  have hnm : ∀ v : JVal, RecvEvent.item v ∉ [RecvEvent.timeoutE, RecvEvent.timeoutE] := by
    intro v hv
    simp at hv
  exact ⟨hnm, recv_returns_only_real_data.2 _ hnm⟩

/-- C9: a falsy payload (for example an empty dict) dequeued by `recv` is
silently discarded: the loop behaves as if the item had never been delivered,
recv can never return that payload from any trace, and recv keeps blocking
when the falsy item is the only message that arrived. -/
theorem recv_discards_falsy_payloads :
    ∀ v : JVal, pyTruthy v = false →
      (∀ rest : List RecvEvent, recvLoop (RecvEvent.item v :: rest) = recvLoop rest) ∧
      (∀ evs : List RecvEvent, (recvLoop evs).2 ≠ some v) ∧
      (recvLoop [RecvEvent.item v]).2 = none := by
  intro v hv
  refine ⟨fun rest => by simp [recvLoop, hv], ?_, by simp [recvLoop, hv]⟩
  intro evs
  induction evs with
  | nil => simp [recvLoop]
  | cons e rest ih =>
      cases e with
      | timeoutE => simpa only [recvLoop] using ih
      | item w =>
          by_cases hw : pyTruthy w
          · simp only [recvLoop, hw, if_true]
            intro hwv
            simp only [Option.some.injEq] at hwv
            rw [hwv, hv] at hw
            exact Bool.false_ne_true hw
          · simpa only [recvLoop, hw, if_false, Bool.false_eq_true] using ih

/-- Witness for C9 at the empty dict, a falsy payload. -/
theorem recv_discards_falsy_payloads_witness :
    pyTruthy (JVal.jObj []) = false ∧
    ((∀ rest : List RecvEvent,
        recvLoop (RecvEvent.item (JVal.jObj []) :: rest) = recvLoop rest) ∧
      (∀ evs : List RecvEvent, (recvLoop evs).2 ≠ some (JVal.jObj [])) ∧
      (recvLoop [RecvEvent.item (JVal.jObj [])]).2 = none) :=
  ⟨rfl, recv_discards_falsy_payloads (JVal.jObj []) rfl⟩

/-- C3: every data frame (a frame with no event marker, carrying a "data"
field and a topic name) has its data payload enqueued verbatim onto the
queue of its named topic, and a wire-ordered list of such frames is
dispatched without error so that every topic's queue receives exactly its
frames' payloads in wire-arrival order (per-topic FIFO). -/
theorem data_frames_enqueued_fifo :
    ∀ (fs : List Frame) (st : Registry),
      (∀ f ∈ fs, f.event = none ∧ f.data ≠ none ∧ f.topic ≠ none) →
      ∃ st1, dispatchList st fs = Except.ok st1 ∧
        ∀ t : String,
          qOf st1 t
            = qOf st t ++ fs.filterMap (fun f => if f.topic = some t then f.data else none) := by
  intro fs
  induction fs with
  | nil =>
      intro st _
      exact ⟨st, rfl, by simp⟩
  | cons f rest ih =>
      intro st h
      obtain ⟨hev, hd, ht⟩ := h f (List.mem_cons_self _ _)
      obtain ⟨d, hdd⟩ := Option.ne_none_iff_exists'.mp hd
      obtain ⟨tp, htt⟩ := Option.ne_none_iff_exists'.mp ht
      have hstep : handleMessage st f = Except.ok (Registry.push st tp d) := by
        simp [handleMessage, hev, hdd, htt, handleGeneralMessage]
      obtain ⟨st1, hds, hq⟩ :=
        ih (Registry.push st tp d) (fun f2 hm => h f2 (List.mem_cons_of_mem _ hm))
      refine ⟨st1, ?_, ?_⟩
      · simp [dispatchList, hstep, hds]
      · intro t
        rw [hq t, qOf_push]
        by_cases hts : t = tp
        · subst hts
          simp [htt, hdd]
        · have hne : ¬ f.topic = some t := by
            rw [htt]
            intro hh
            exact hts (Option.some.inj hh).symm
          simp [hts, hne, List.filterMap_cons]

/-- Witness for C3: one data frame for topic "bbos" lands at the back of the
"bbos" queue. -/
theorem data_frames_enqueued_fifo_witness :
    (∀ f ∈ [dataFrame "bbos" (JVal.jStr "p")],
        f.event = none ∧ f.data ≠ none ∧ f.topic ≠ none) ∧
    ∃ st1,
      dispatchList [("bbos", ([JVal.jNum 7] : List JVal))]
          [dataFrame "bbos" (JVal.jStr "p")] = Except.ok st1 ∧
      ∀ t : String,
        qOf st1 t
          = qOf [("bbos", [JVal.jNum 7])] t
            ++ [dataFrame "bbos" (JVal.jStr "p")].filterMap
                (fun f => if f.topic = some t then f.data else none) := by
  have hwf : ∀ f ∈ [dataFrame "bbos" (JVal.jStr "p")],
      f.event = none ∧ f.data ≠ none ∧ f.topic ≠ none := by
    intro f hf
    simp at hf
    subst hf
    exact ⟨rfl, by simp [dataFrame], by simp [dataFrame]⟩
  exact ⟨hwf, data_frames_enqueued_fifo _ _ hwf⟩

/-- C5 counterexample: dispatching a data frame for the topic "x" into an
empty registry (no queue registered for "x") silently succeeds and
implicitly creates the "x" queue holding the payload — the defaultdict
behaviour, contradicting the claim that no queue is created implicitly. -/
theorem unknown_topic_autocreates_cex :
    Registry.find ([] : Registry) "x" = none ∧
    handleMessage ([] : Registry) (dataFrame "x" (JVal.jStr "p"))
      = Except.ok [("x", [JVal.jStr "p"])] := by
  exact ⟨rfl, rfl⟩

/-- C5 (amended): dispatching a data frame whose topic has no registered
queue implicitly creates a fresh queue for that topic (appended at the end
of the registry) holding the payload, and reports success — a silent
defaultdict auto-creation, not an error. -/
theorem dispatch_unknown_topic_autocreates :
    ∀ (r : Registry) (t : String) (d : JVal),
      Registry.find r t = none →
      handleMessage r (dataFrame t d) = Except.ok (r ++ [(t, [d])]) := by
  intro r t d h
  simp [handleMessage, dataFrame, handleGeneralMessage, push_eq_append_of_none r t d h]

/-- Witness for the amended C5 on a registry holding only "bbos". -/
theorem dispatch_unknown_topic_autocreates_witness :
    Registry.find [("bbos", ([] : List JVal))] "x" = none ∧
    handleMessage [("bbos", [])] (dataFrame "x" (JVal.jNum 1))
      = Except.ok [("bbos", []), ("x", [JVal.jNum 1])] :=
  ⟨rfl, dispatch_unknown_topic_autocreates [("bbos", [])] "x" (JVal.jNum 1) rfl⟩

/-- C6: processing an inbound frame carrying the ping marker (the heartbeat
frame of the wire protocol, which carries no data field) sends exactly one
pong control frame and enqueues nothing: every topic queue is untouched. -/
theorem ping_frame_one_pong_no_enqueue :
    ∀ (st : Registry) (f : Frame),
      f.event = some "ping" → f.data = none →
      processFrame st (some f) = ([WireMsg.pongW], Except.ok st) := by
  intro st f hev hd
  simp [processFrame, handleHeartbeat, handleMessage, hev, hd]

/-- Witness for C6 at the literal heartbeat frame. -/
theorem ping_frame_one_pong_no_enqueue_witness :
    processFrame [("bbos", ([] : List JVal))]
        (some { event := some "ping", success := none, data := none,
                topic := none, ts := none })
      = ([WireMsg.pongW], Except.ok [("bbos", ([] : List JVal))]) :=
  ping_frame_one_pong_no_enqueue [("bbos", [])] _ rfl rfl

/-- C4: for a control-acknowledgment frame (an event marker other than
ping/pong): a failure ack raises the fatal dispatch error; a successful
request-type ack carrying an orderbook snapshot payload has the payload
extracted, the frame's top-level timestamp attached to it, and is enqueued
onto the topic built as symbol ++ "@orderbook"; every other successful ack
is dropped, leaving every topic queue untouched. -/
theorem control_ack_dispatch :
    ∀ (st : Registry) (f : Frame) (ev : String),
      f.event = some ev → ev ≠ "ping" → ev ≠ "pong" →
      (f.success = some false →
          handleMessage st f = Except.error (PyError.dispatchError f)) ∧
      (∀ (flds : List (String × JVal)) (sym : String) (tsv : JVal),
          f.success = some true → ev = "request" → f.data = some (JVal.jObj flds) →
          objGet flds "symbol" = some (JVal.jStr sym) → f.ts = some tsv →
          handleMessage st f
            = Except.ok (Registry.push st (sym ++ "@orderbook")
                (JVal.jObj (objSet flds "ts" tsv)))) ∧
      (f.success = some true → (f.data = none ∨ ev ≠ "request") →
          handleMessage st f = Except.ok st) := by
  intro st f ev hev hp hq
  have hpq : ¬ (ev = "ping" ∨ ev = "pong") := by
    rintro (h | h)
    · exact hp h
    · exact hq h
  refine ⟨?_, ?_, ?_⟩
  · intro hsucc
    simp [handleMessage, hev, hpq, hsucc]
  · intro flds sym tsv hsucc hreq hdata hsym hts
    subst hreq
    simp [handleMessage, hev, hpq, hsucc, hdata, handleRequestOrderbook, hsym, hts]
  · intro hsucc hnot
    have hcond : ¬ (f.data.isSome = true ∧ ev = "request") := by
      rcases hnot with h | h
      · rintro ⟨hh, _⟩
        rw [h] at hh
        simp at hh
      · rintro ⟨_, hh⟩
        exact h hh
    simp [handleMessage, hev, hpq, hsucc, hcond]

/-- Witness for C4: a successful request ack for symbol PERP_ETH_USDC with
timestamp 123 is enqueued on PERP_ETH_USDC@orderbook with "ts" attached. -/
theorem control_ack_dispatch_witness :
    handleMessage ([] : Registry)
        { event := some "request", success := some true,
          data := some (JVal.jObj [("symbol", JVal.jStr "PERP_ETH_USDC")]),
          topic := none, ts := some (JVal.jNum 123) }
      = Except.ok (Registry.push ([] : Registry) ("PERP_ETH_USDC" ++ "@orderbook")
          (JVal.jObj (objSet [("symbol", JVal.jStr "PERP_ETH_USDC")] "ts" (JVal.jNum 123)))) :=
  (control_ack_dispatch [] _ "request" rfl (by decide) (by decide)).2.1
    [("symbol", JVal.jStr "PERP_ETH_USDC")] "PERP_ETH_USDC" (JVal.jNum 123)
    rfl rfl rfl rfl rfl

/-- C1 counterexample: registry entries are not added only by `subscribe`:
dispatching a data frame for the unregistered topic "x" (the operation
`Op.dispatchOp`, not `Op.subscribeOp`) adds an "x" entry to an empty
registry, via the defaultdict auto-creation. -/
theorem registry_added_only_by_subscribe_cex :
    ¬ (∀ (r : Registry) (f : Frame) (t : String),
        Registry.find r t = none →
        Registry.find (step r (Op.dispatchOp f)) t = none) := by
  intro h
  have h1 := h [] (dataFrame "x" (JVal.jStr "p")) "x" rfl
  rw [show Registry.find (step [] (Op.dispatchOp (dataFrame "x" (JVal.jStr "p")))) "x"
        = some [JVal.jStr "p"] from rfl] at h1
  exact Option.noConfusion h1

/-- C1 (amended): reconnect never adds, removes or alters a registry entry;
on every (re)connect the session sends one subscribe control message per
topic currently in the registry, in registry order, the private manager
sending a fresh login message immediately before each topic's subscribe
message; entries are removed only by a successful `unsubscribe` of that
topic; and entries are added only by `subscribe` or by the defaultdict
auto-creation that dispatch and `recv` perform for an unregistered topic. -/
theorem reconnect_replays_all_subscriptions :
    (∀ r : Registry, step r Op.reconnectPubOp = r ∧ step r Op.reconnectPrivOp = r) ∧
    (∀ (cid : String) (r : Registry),
        reconnectPubMsgs cid r = (Registry.keys r).map (fun t => WireMsg.subscribeW cid t)) ∧
    (∀ (cid : String) (r : Registry),
        reconnectPrivMsgs cid r
          = (Registry.keys r).flatMap
              (fun t => [WireMsg.authW cid, WireMsg.subscribeW cid t])) ∧
    (∀ (r : Registry) (op : Op) (t : String),
        Registry.find r t ≠ none → Registry.find (step r op) t = none →
        op = Op.unsubscribeOp t true) ∧
    (∀ (r : Registry) (op : Op) (t : String),
        Registry.find r t = none → Registry.find (step r op) t ≠ none →
        op = Op.subscribeOp t ∨ (∃ f, op = Op.dispatchOp f) ∨ op = Op.recvOp t) := by
  refine ⟨fun r => ⟨rfl, rfl⟩, ?_, ?_, ?_, ?_⟩
  · intro cid r
    rw [reconnectPubMsgs, foldl_append_bind, flatMap_single]
    simp
  · intro cid r
    rw [reconnectPrivMsgs, foldl_append_bind]
    simp
  · intro r op t h1 h2
    cases op with
    | subscribeOp t2 =>
        exfalso
        rw [show step r (Op.subscribeOp t2) = Registry.set r t2 [] from rfl, find_set] at h2
        by_cases hts : t = t2
        · rw [if_pos hts] at h2
          exact Option.noConfusion h2
        · rw [if_neg hts] at h2
          exact h1 h2
    | unsubscribeOp t2 ok =>
        cases ok with
        | false => exact absurd h2 h1
        | true =>
            cases hf : Registry.find r t2 with
            | none =>
                exfalso
                have hstep : step r (Op.unsubscribeOp t2 true) = r := by
                  simp [step, unsubscribe, hf]
                rw [hstep] at h2
                exact h1 h2
            | some q =>
                have hstep : step r (Op.unsubscribeOp t2 true) = Registry.erase r t2 := by
                  simp [step, unsubscribe, hf]
                rw [hstep] at h2
                by_cases hts : t = t2
                · rw [hts]
                · exfalso
                  rw [find_erase_ne r t2 t hts] at h2
                  exact h1 h2
    | reconnectPubOp => exact absurd h2 h1
    | reconnectPrivOp => exact absurd h2 h1
    | dispatchOp f =>
        exfalso
        cases hh : handleMessage r f with
        | ok r1 =>
            have hstep : step r (Op.dispatchOp f) = r1 := by simp [step, hh]
            rw [hstep] at h2
            rcases handleMessage_ok_shape r r1 f hh with h3 | ⟨t2, v, h3⟩
            · rw [h3] at h2
              exact h1 h2
            · rw [h3, find_push] at h2
              by_cases hts : t = t2
              · rw [if_pos hts] at h2
                exact Option.noConfusion h2
              · rw [if_neg hts] at h2
                exact h1 h2
        | error e =>
            have hstep : step r (Op.dispatchOp f) = r := by simp [step, hh]
            rw [hstep] at h2
            exact h1 h2
    | recvOp t2 =>
        exfalso
        cases hf : Registry.find r t2 with
        | some q =>
            have hstep : step r (Op.recvOp t2) = Registry.set r t2 (drainQ q).2 := by
              simp [step, recvRegistry, hf]
            rw [hstep, find_set] at h2
            by_cases hts : t = t2
            · rw [if_pos hts] at h2
              exact Option.noConfusion h2
            · rw [if_neg hts] at h2
              exact h1 h2
        | none =>
            have hstep : step r (Op.recvOp t2) = r ++ [(t2, [])] := by
              simp [step, recvRegistry, hf]
            rw [hstep] at h2
            obtain ⟨q, hq⟩ := Option.ne_none_iff_exists'.mp h1
            rw [find_append_of_some r _ t q hq] at h2
            exact Option.noConfusion h2
  · intro r op t h1 h2
    cases op with
    | subscribeOp t2 =>
        left
        rw [show step r (Op.subscribeOp t2) = Registry.set r t2 [] from rfl, find_set] at h2
        by_cases hts : t = t2
        · rw [hts]
        · rw [if_neg hts] at h2
          exact absurd h1 h2
    | unsubscribeOp t2 ok =>
        exfalso
        cases ok with
        | false => exact h2 h1
        | true =>
            cases hf : Registry.find r t2 with
            | none =>
                have hstep : step r (Op.unsubscribeOp t2 true) = r := by
                  simp [step, unsubscribe, hf]
                rw [hstep] at h2
                exact h2 h1
            | some q =>
                have hstep : step r (Op.unsubscribeOp t2 true) = Registry.erase r t2 := by
                  simp [step, unsubscribe, hf]
                rw [hstep] at h2
                exact h2 (find_erase_none r t2 t h1)
    | reconnectPubOp => exact absurd h1 h2
    | reconnectPrivOp => exact absurd h1 h2
    | dispatchOp f => exact Or.inr (Or.inl ⟨f, rfl⟩)
    | recvOp t2 =>
        right; right
        cases hf : Registry.find r t2 with
        | some q =>
            have hstep : step r (Op.recvOp t2) = Registry.set r t2 (drainQ q).2 := by
              simp [step, recvRegistry, hf]
            rw [hstep, find_set] at h2
            by_cases hts : t = t2
            · rw [hts]
            · rw [if_neg hts] at h2
              exact absurd h1 h2
        | none =>
            have hstep : step r (Op.recvOp t2) = r ++ [(t2, [])] := by
              simp [step, recvRegistry, hf]
            rw [hstep, find_append_of_none r _ t h1] at h2
            by_cases hts : t2 = t
            · rw [hts]
            · exfalso
              apply h2
              simp [Registry.find, hts]

/-- Witness for the amended C1: on a registry holding topic "a", the only
operation that removes the "a" entry is a successful unsubscribe of "a". -/
theorem reconnect_replays_all_subscriptions_witness :
    Registry.find [("a", ([] : List JVal))] "a" ≠ none ∧
    Registry.find (step [("a", ([] : List JVal))] (Op.unsubscribeOp "a" true)) "a" = none ∧
    Op.unsubscribeOp "a" true = Op.unsubscribeOp "a" true := by
  have h1 : Registry.find [("a", ([] : List JVal))] "a" ≠ none := by
    simp [Registry.find]
  have h2 : Registry.find (step [("a", ([] : List JVal))] (Op.unsubscribeOp "a" true)) "a"
      = none := rfl
  exact ⟨h1, h2,
    reconnect_replays_all_subscriptions.2.2.2.1 _ (Op.unsubscribeOp "a" true) "a" h1 h2⟩

/-- C8 counterexample: after a malformed frame, a well-formed data frame on
the same connection is not dispatched: the read loop over the two frames
leaves the registry empty, although dispatching the second frame alone
would have enqueued its payload on topic "t". -/
theorem malformed_frame_drops_rest_cex :
    (readLoop ([] : Registry)
        [InEvent.frameEv none,
         InEvent.frameEv (some (dataFrame "t" (JVal.jStr "p")))]).1 = ([] : Registry) ∧
    handleMessage ([] : Registry) (dataFrame "t" (JVal.jStr "p"))
      = Except.ok [("t", [JVal.jStr "p"])] :=
  ⟨rfl, rfl⟩

/-- C8 (amended): a malformed inbound frame makes the dispatcher raise a
JSON decode error that ends the current connection's read loop — subsequent
frames of that connection are never dispatched and the registry is left
unchanged — after which the manager logs the exception, reconnects,
replays every subscription, and continues on the next connection; the
process is not torn down. -/
theorem malformed_frame_ends_connection :
    ∀ (st : Registry) (evs : List InEvent) (conns : List (List InEvent)),
      readLoop st (InEvent.frameEv none :: evs)
        = (st, [], LoopEnd.erroredEnd PyError.jsonDecodeError) ∧
      connectRun st ((InEvent.frameEv none :: evs) :: conns)
        = ((connectRun st conns).1,
            reconnectPubMsgs "WS_PUBLIC" st ++ (connectRun st conns).2) := by
  intro st evs conns
  refine ⟨rfl, ?_⟩
  cases hc : connectRun st conns with
  | mk st2 sends2 => simp [connectRun, readLoop, processFrame, hc]

/-- C10: `unsubscribe` on a topic missing from the registry sends the
unsubscribe control message over the wire and then fails with the lookup
error, leaving the registry unchanged; and when the wire send itself fails,
nothing is sent and the topic's queue entry is left in the registry — the
operation is not atomic. -/
theorem unsubscribe_sends_before_pop :
    ∀ (cid : String) (r : Registry) (t : String),
      (Registry.find r t = none →
        unsubscribe cid r t true
          = ([WireMsg.unsubscribeW cid t], r, some (PyError.keyError t))) ∧
      (unsubscribe cid r t false = ([], r, some PyError.connClosed)) ∧
      (∀ q, Registry.find r t = some q →
        unsubscribe cid r t true
          = ([WireMsg.unsubscribeW cid t], Registry.erase r t, none)) := by
  intro cid r t
  refine ⟨?_, rfl, ?_⟩
  · intro h
    simp [unsubscribe, h]
  · intro q h
    simp [unsubscribe, h]

/-- Witness for C10 at the empty registry and topic "x". -/
theorem unsubscribe_sends_before_pop_witness :
    Registry.find ([] : Registry) "x" = none ∧
    unsubscribe "WS_PUBLIC" ([] : Registry) "x" true
      = ([WireMsg.unsubscribeW "WS_PUBLIC" "x"], ([] : Registry),
          some (PyError.keyError "x")) :=
  ⟨rfl, (unsubscribe_sends_before_pop "WS_PUBLIC" [] "x").1 rfl⟩

/-- C7: `_handle_response` on a 400 response with a structured error body
logs the error and returns the parsed body as a normal result, and no
response whatsoever makes it surface the typed API exception carrying
status code, error code and message — the result is always either the
parsed body or a request exception for an unparseable body. -/
theorem non2xx_body_returned_not_raised :
    handleResponse { status := 400, body := some sampleErrBody, text := "" }
      = (true, Except.ok sampleErrBody) ∧
    ∀ resp : HttpResponse,
      (∃ j, (handleResponse resp).2 = Except.ok j) ∨
      ∃ msg, (handleResponse resp).2 = Except.error (RestError.requestException msg) := by
  refine ⟨?_, ?_⟩
  · have h0 : handleResponse { status := 400, body := some sampleErrBody, text := "" }
        = (statusNon2xx 400, Except.ok sampleErrBody) := rfl
    have hs : statusNon2xx 400 = true := by decide
    rw [h0, hs]
  intro resp
  cases hb : resp.body with
  | some j => exact Or.inl ⟨j, by simp [handleResponse, hb]⟩
  | none => exact Or.inr ⟨"Invalid Response: " ++ resp.text, by simp [handleResponse, hb]⟩

end OrderlySdk
